import Mathlib

/-!
# Verification of `jsonrq` (jsonrq.go)

A shallow embedding of the `jsonrq` Go package: a bounded-concurrency pool of
workers that fetch remote resources and JSON-decode them into caller-supplied
targets, with a per-task last-non-nil-wins error latch.

Modelling conventions:
* Go `error` values are `Option GoError`; `none` is the nil interface value.
* `pkg/errors.Wrap(err, msg)` returns nil when `err` is nil, otherwise a
  wrapped error; `errorsWrap` mirrors this.
* The external collaborators (HTTP transport, JSON decoder, body close) are
  modelled by a per-task oracle `FetchWorld` recording the outcome each
  collaborator would produce for this task.
* The pool (unbuffered channel + `sync.WaitGroup`) is modelled by a small-step
  transition relation `Step` over `PoolState`: an unbuffered send is a
  rendezvous between the producer and a waiting worker, `close` is a producer
  step enabled once all sends are done, a worker at `range` over the closed
  channel exits and decrements the wait-group counter, and `wg.Wait` returns
  when the counter is zero.
-/

/-- Go error values as an inductive tree: a base error message, or a
`pkg/errors`-style wrapped error (message + cause). -/
inductive GoError : Type where
  | base (msg : String) : GoError
  | wrapped (msg : String) (cause : GoError) : GoError
deriving DecidableEq, Repr

/-- Model of `errors.Wrap(err, msg)` from pkg/errors: returns nil if `err` is nil,
otherwise annotates the error with `msg`. -/
def errorsWrap (msg : String) (e : Option GoError) : Option GoError :=
  e.map (GoError.wrapped msg)

/-- Model of `BasicRequest.SetErr` (jsonrq.go lines 37-42): overwrites the stored error
with `err` unless the stored error is non-nil and `err` is nil.
```go
if r.err == nil || err != nil { r.err = err }
``` -/
def SetErr (cur e : Option GoError) : Option GoError :=
  if cur = none ∨ ¬ e = none then e else cur

/-- The spec's description of the latch ("the final observed error equals the
last call in the sequence whose argument was non-nil, or nil if no call ever
passed non-nil"): the last non-`none` entry of the list, `none` if there is
none. Written from the spec, to be compared with the code's fold of `SetErr`. -/
def lastNonNil (es : List (Option GoError)) : Option GoError :=
  es.foldr (fun e acc => match acc with | some a => some a | none => e) none

/-- Applying a sequence of `SetErr` calls to a task whose latch starts at
`cur`. `BasicRequest` starts with a nil error (`NewBasicRequest`). -/
def applySetErrs (cur : Option GoError) (es : List (Option GoError)) :
    Option GoError :=
  es.foldl SetErr cur

theorem SetErr_none_right (cur : Option GoError) : SetErr cur none = cur := by
  cases cur <;> simp [SetErr]

theorem SetErr_some_right (cur : Option GoError) (b : GoError) :
    SetErr cur (some b) = some b := by
  simp [SetErr]

theorem lastNonNil_cons (e : Option GoError) (es : List (Option GoError)) :
    lastNonNil (e :: es) =
      match lastNonNil es with | some a => some a | none => e := by
  simp [lastNonNil]

theorem applySetErrs_eq_lastNonNil (cur : Option GoError)
    (es : List (Option GoError)) :
    applySetErrs cur es =
      match lastNonNil es with | some a => some a | none => cur := by
  induction es generalizing cur with
  | nil => simp [applySetErrs, lastNonNil]
  | cons e es ih =>
    rw [applySetErrs, List.foldl_cons]
    rw [show List.foldl SetErr (SetErr cur e) es = applySetErrs (SetErr cur e) es from rfl]
    rw [ih, lastNonNil_cons]
    cases h : lastNonNil es with
    | some a => simp
    | none =>
      cases e with
      | some b => simp [SetErr_some_right]
      | none => simp [SetErr_none_right]

/-- Claim C1. Error latch: for every sequence of `SetErr` calls on one task
(whose latch starts nil, as `NewBasicRequest` leaves it), the error finally
observed via `Err` equals the argument of the last `SetErr` call whose argument
was non-nil, or nil if no call ever passed a non-nil argument; moreover
`SetErr(nil)` never clears a previously recorded non-nil error, and `SetErr`
with a non-nil argument always overwrites the current value. -/
theorem C1_error_latch :
    (∀ es : List (Option GoError), applySetErrs none es = lastNonNil es) ∧
    (∀ a : GoError, SetErr (some a) none = some a) ∧
    (∀ (cur : Option GoError) (b : GoError), SetErr cur (some b) = some b) := by
  refine ⟨fun es => ?_, fun a => SetErr_none_right (some a),
    fun cur b => SetErr_some_right cur b⟩
  rw [applySetErrs_eq_lastNonNil]
  cases lastNonNil es <;> simp

/-! ## Per-task processing by a worker

`Worker` (jsonrq.go lines 53-75) runs, for each request `r` received from the
channel, the anonymous function (lines 55-71) followed by `r.Done()` (line 72):

```go
resp, err := http.DefaultClient.Do(r.Request())
if err != nil { r.SetErr(errors.Wrap(err, "HTTP: Error performing request")); return }
defer func() { r.SetErr(resp.Body.Close()) }()
err = json.NewDecoder(resp.Body).Decode(r.Data())
if err != nil { r.SetErr(errors.Wrap(err, "JSON: Error decoding response")) ; return }
```

and `BasicRequest.Request` (lines 45-49) latches a descriptor-construction
error before returning the descriptor:

```go
request, err := http.NewRequest("GET", r.url, nil)
r.SetErr(errors.Wrap(err, "Error creating BasicRequest"))
return request
```

The external collaborators are modelled by a per-task oracle. -/

/-- Outcomes the external collaborators produce for one task: the error (if
any) of `http.NewRequest` inside `BasicRequest.Request`, the error (if any) of
`http.DefaultClient.Do`, the decoder's result (a decoded value of type `V`, or
an error), and the error (if any) of `resp.Body.Close()`. -/
structure FetchWorld (V : Type) where
  reqErr : Option GoError
  fetchErr : Option GoError
  decodeRes : Except GoError V
  closeErr : Option GoError
deriving Repr

/-- The task-visible state a worker mutates: the `BasicRequest` error latch,
the decode target (`Data()`), and the number of `Done()` calls observed. -/
structure TaskState (V : Type) where
  err : Option GoError
  data : V
  doneCount : Nat
deriving Repr

/-- A freshly constructed task: nil error (`NewBasicRequest`), caller-supplied
initial decode-target contents, no completion signalled yet. -/
def initTask {V : Type} (v : V) : TaskState V :=
  { err := none, data := v, doneCount := 0 }

/-- Model of `r.Request()` as called on line 56: `BasicRequest.Request` latches the
(wrapped) construction error of `http.NewRequest` (lines 46-47) and hands the
descriptor to the fetch. -/
def requestPhase {V : Type} (w : FetchWorld V) (t : TaskState V) : TaskState V :=
  { t with err := SetErr t.err (errorsWrap "Error creating BasicRequest" w.reqErr) }

/-- The rest of the worker's per-task code (lines 56-72), after the descriptor
has been produced: perform the fetch; on transport failure latch the wrapped
error and return (the deferred body close was not yet registered); on success
decode into the target, latching a wrapped decode error on failure, and in
either case run the deferred `r.SetErr(resp.Body.Close())`; finally `r.Done()`. -/
def finishPhase {V : Type} (w : FetchWorld V) (t : TaskState V) : TaskState V :=
  let t1 :=
    match w.fetchErr with
    | some f =>
        { t with err := SetErr t.err (errorsWrap "HTTP: Error performing request" (some f)) }
    | none =>
        match w.decodeRes with
        | Except.error d =>
            let t2 := { t with
              err := SetErr t.err (errorsWrap "JSON: Error decoding response" (some d)) }
            { t2 with err := SetErr t2.err w.closeErr }
        | Except.ok v =>
            let t2 := { t with data := v }
            { t2 with err := SetErr t2.err w.closeErr }
  { t1 with doneCount := t1.doneCount + 1 }

/-- One full fetch-decode cycle of a worker on one dequeued task
(jsonrq.go lines 55-72): descriptor production, then fetch, decode, deferred
body release and completion signal. -/
def processTask {V : Type} (w : FetchWorld V) (t : TaskState V) : TaskState V :=
  finishPhase w (requestPhase w t)

theorem requestPhase_doneCount {V : Type} (w : FetchWorld V) (t : TaskState V) :
    (requestPhase w t).doneCount = t.doneCount := rfl

theorem requestPhase_data {V : Type} (w : FetchWorld V) (t : TaskState V) :
    (requestPhase w t).data = t.data := rfl

theorem finishPhase_doneCount {V : Type} (w : FetchWorld V) (t : TaskState V) :
    (finishPhase w t).doneCount = t.doneCount + 1 := by
  unfold finishPhase
  cases w.fetchErr with
  | some f => rfl
  | none => cases w.decodeRes with
    | error d => rfl
    | ok v => rfl

theorem processTask_doneCount {V : Type} (w : FetchWorld V) (t : TaskState V) :
    (processTask w t).doneCount = t.doneCount + 1 := by
  unfold processTask
  rw [finishPhase_doneCount, requestPhase_doneCount]

/-- On transport failure the worker records the wrapped fetch error; since the
latch argument is non-nil it overwrites whatever was there. -/
theorem processTask_err_of_fetchErr {V : Type} (w : FetchWorld V)
    (t : TaskState V) (f : GoError) (hf : w.fetchErr = some f) :
    (processTask w t).err =
      some (GoError.wrapped "HTTP: Error performing request" f) := by
  unfold processTask finishPhase
  rw [hf]
  simp [errorsWrap, SetErr_some_right]

theorem processTask_data_of_fetchErr {V : Type} (w : FetchWorld V)
    (t : TaskState V) (f : GoError) (hf : w.fetchErr = some f) :
    (processTask w t).data = t.data := by
  unfold processTask finishPhase
  rw [hf]
  rfl

/-- On transport failure the decoder oracle is never consulted: the result is
the same for every decoder outcome. -/
theorem processTask_decode_irrelevant_of_fetchErr {V : Type} (w : FetchWorld V)
    (t : TaskState V) (f : GoError) (hf : w.fetchErr = some f)
    (d d' : Except GoError V) :
    processTask { w with decodeRes := d } t =
      processTask { w with decodeRes := d' } t := by
  unfold processTask finishPhase requestPhase
  simp only [hf]

/-- Claim C5. Release-error overwrite: when the fetch succeeds, the deferred
`r.SetErr(resp.Body.Close())` runs after the task's decode step and is recorded
through the latch: (a) whenever the body release fails with `c` the final
latch value is `some c` — in particular for a task whose fetch and decode both
succeed, and also when it overwrites an earlier-recorded decode error, per the
latch policy; (b) a nil release error is a latch no-op and keeps the decode
error. -/
theorem C5_release_error_overwrite {V : Type} (w : FetchWorld V)
    (t : TaskState V) (hf : w.fetchErr = none) :
    (∀ c : GoError, w.closeErr = some c → (processTask w t).err = some c) ∧
    (∀ d : GoError, w.decodeRes = Except.error d → w.closeErr = none →
      (processTask w t).err =
        some (GoError.wrapped "JSON: Error decoding response" d)) := by
  constructor
  · intro c hc
    unfold processTask finishPhase
    rw [hf]
    cases hd : w.decodeRes with
    | error d => simp [hc, errorsWrap, SetErr_some_right]
    | ok v => simp [hc, SetErr_some_right]
  · intro d hd hc
    unfold processTask finishPhase
    rw [hf, hd, hc]
    simp [errorsWrap, SetErr_some_right, SetErr_none_right]

/-- Concrete world for the C5 witness: fetch succeeds, decode succeeds,
body release fails. -/
def c5World : FetchWorld Nat :=
  { reqErr := none, fetchErr := none, decodeRes := Except.ok 7,
    closeErr := some (GoError.base "close failed") }

theorem C5_release_error_overwrite_witness :
    c5World.fetchErr = none ∧
    c5World.closeErr = some (GoError.base "close failed") ∧
    (processTask c5World (initTask 0)).err = some (GoError.base "close failed") :=
  ⟨rfl, rfl,
    (C5_release_error_overwrite c5World (initTask 0) rfl).1
      (GoError.base "close failed") rfl⟩

/-- Claim C6. Descriptor failure does not short-circuit: when descriptor
production records a construction error `r`, that wrapped error is in the
latch right after `Request()` returns, yet the worker proceeds to the fetch
with the returned (possibly unusable) descriptor, and an error `f` from that
fetch attempt overwrites the construction error in the latch. -/
theorem C6_descriptor_failure_no_short_circuit {V : Type} (w : FetchWorld V)
    (t : TaskState V) (r f : GoError) (hr : w.reqErr = some r)
    (hf : w.fetchErr = some f) :
    (requestPhase w t).err =
      some (GoError.wrapped "Error creating BasicRequest" r) ∧
    (processTask w t).err =
      some (GoError.wrapped "HTTP: Error performing request" f) := by
  constructor
  · unfold requestPhase
    rw [hr]
    simp [errorsWrap, SetErr_some_right]
  · exact processTask_err_of_fetchErr w t f hf

/-- Concrete world for the C6 witness: descriptor construction fails and the
subsequent fetch attempt also fails. -/
def c6World : FetchWorld Nat :=
  { reqErr := some (GoError.base "bad url"),
    fetchErr := some (GoError.base "nil request"),
    decodeRes := Except.ok 0, closeErr := none }

theorem C6_descriptor_failure_no_short_circuit_witness :
    c6World.reqErr = some (GoError.base "bad url") ∧
    c6World.fetchErr = some (GoError.base "nil request") ∧
    (requestPhase c6World (initTask 0)).err =
      some (GoError.wrapped "Error creating BasicRequest" (GoError.base "bad url")) ∧
    (processTask c6World (initTask 0)).err =
      some (GoError.wrapped "HTTP: Error performing request"
        (GoError.base "nil request")) := by
  refine ⟨rfl, rfl, ?_⟩
  have h := C6_descriptor_failure_no_short_circuit c6World (initTask 0)
    (GoError.base "bad url") (GoError.base "nil request") rfl rfl
  exact ⟨h.1, h.2⟩

/-! ## Pool semantics

`Pool` (jsonrq.go lines 79-110) couples an unbuffered channel `in` with a
`sync.WaitGroup` counting the workers. `NewPool(n)` (lines 98-110) starts `n`
workers blocked on the empty channel and sets the counter to `n`. The
producer running `Do(rqs...)` then `Stop()` (lines 85-95, 114-118, 121-128)
sends the tasks in order, closes the channel, and waits on the counter.

Small-step model: the producer's control point is determined by `sent`,
`closed` and `mainDone`; a send on the unbuffered channel is a rendezvous with
a worker blocked at `for r := range in`; a worker that received a task runs
`r.Request()` and starts the fetch (`midFetch`), later finishes the cycle and
`r.Done()` in one step and returns to the channel; once the channel is closed
a blocked worker's `range` ends and it runs `wg.Done()`; `wg.Wait()` returns
when the counter reaches zero. -/

/-- Control state of one worker goroutine: blocked at `for r := range in`,
mid-fetch on task `tid`, or exited (after `wg.Done()`). -/
inductive WorkerState : Type where
  | waiting : WorkerState
  | midFetch (tid : Nat) : WorkerState
  | exited : WorkerState
deriving DecidableEq, Repr

/-- Global state of one `Do`/`DoN` run: the pool (`numWorkers` workers, the
channel, the wait-group counter `wg`), the producer position (`sent` tasks
sent so far, `closed` channel, `mainDone` once `wg.Wait` returned) and the
per-task oracles and states, indexed by position in the argument list. -/
structure PoolState (V : Type) where
  numWorkers : Nat
  numTasks : Nat
  worlds : Nat → FetchWorld V
  tasks : Nat → TaskState V
  workers : Nat → WorkerState
  sent : Nat
  closed : Bool
  mainDone : Bool
  wg : Nat

/-- State right after `NewPool` returned to the producer of a `Do`/`DoN` run:
all workers blocked on the empty channel, counter at the worker count, nothing
sent, channel open. -/
def initState {V : Type} (nw nt : Nat) (W : Nat → FetchWorld V)
    (v0 : Nat → V) : PoolState V :=
  { numWorkers := nw, numTasks := nt, worlds := W,
    tasks := fun tid => initTask (v0 tid),
    workers := fun _ => WorkerState.waiting,
    sent := 0, closed := false, mainDone := false, wg := nw }

/-- One interleaving step of the run. -/
inductive Step {V : Type} : PoolState V → PoolState V → Prop where
  /-- Rendezvous on the unbuffered channel (`p.in <- rq` meeting
  `for r := range in`): the producer hands task `sent` to waiting worker `i`,
  which immediately obtains the descriptor via `r.Request()` and begins the
  fetch. -/
  | handoff (s : PoolState V) (i : Nat) (hi : i < s.numWorkers)
      (hw : s.workers i = WorkerState.waiting) (hs : s.sent < s.numTasks) :
      Step s { s with
        workers := Function.update s.workers i (WorkerState.midFetch s.sent),
        tasks := Function.update s.tasks s.sent
          (requestPhase (s.worlds s.sent) (s.tasks s.sent)),
        sent := s.sent + 1 }
  /-- Worker `i` completes the fetch-decode cycle on the task it holds,
  including the deferred body close and `r.Done()`, and loops back to the
  channel. -/
  | finish (s : PoolState V) (i tid : Nat) (hi : i < s.numWorkers)
      (hw : s.workers i = WorkerState.midFetch tid) :
      Step s { s with
        workers := Function.update s.workers i WorkerState.waiting,
        tasks := Function.update s.tasks tid
          (finishPhase (s.worlds tid) (s.tasks tid)) }
  /-- The producer, all sends done, runs `close(p.in)` (first line of
  `Stop`). -/
  | closeQ (s : PoolState V) (hs : s.sent = s.numTasks) (hc : s.closed = false) :
      Step s { s with closed := true }
  /-- A worker blocked on the closed, drained channel leaves the `range` loop
  and runs `wg.Done()`. -/
  | wexit (s : PoolState V) (i : Nat) (hi : i < s.numWorkers)
      (hw : s.workers i = WorkerState.waiting) (hc : s.closed = true) :
      Step s { s with
        workers := Function.update s.workers i WorkerState.exited,
        wg := s.wg - 1 }
  /-- The producer's `p.wg.Wait()` (second line of `Stop`) returns once the
  counter is zero. -/
  | mainFinish (s : PoolState V) (hc : s.closed = true) (hw : s.wg = 0)
      (hm : s.mainDone = false) :
      Step s { s with mainDone := true }

/-- States a run can reach from `s0` by any interleaving. -/
def Reachable {V : Type} (s0 s : PoolState V) : Prop :=
  Relation.ReflTransGen Step s0 s

/-- Top-level `Do` (jsonrq.go lines 114-118): `NewPool(uint(len(rqs)))`, then
enqueue all tasks, then `Stop()`. -/
def doInit {V : Type} (nt : Nat) (W : Nat → FetchWorld V) (v0 : Nat → V) :
    PoolState V :=
  initState nt nt W v0

/-- The clamp at the top of `DoN` (lines 122-124): `if n < 1 { n = 1 }`. -/
def doNClamp (n : Nat) : Nat := if n < 1 then 1 else n

/-- Model of `DoN` (jsonrq.go lines 121-128): clamp `n`, `NewPool(n)`, enqueue all
tasks, `Stop()`. -/
def doNInit {V : Type} (n nt : Nat) (W : Nat → FetchWorld V) (v0 : Nat → V) :
    PoolState V :=
  initState (doNClamp n) nt W v0

/-- Whether a worker is currently mid-fetch on some task. -/
def isMidFetch : WorkerState → Bool
  | WorkerState.midFetch _ => true
  | _ => false

/-- Number of tasks concurrently mid-fetch. -/
def midFetchCount {V : Type} (s : PoolState V) : Nat :=
  ((Finset.range s.numWorkers).filter
    (fun i => isMidFetch (s.workers i) = true)).card

theorem doNClamp_eq_max (n : Nat) : doNClamp n = max n 1 := by
  rw [Nat.max_def]
  unfold doNClamp
  split <;> split <;> omega

/-! ## Invariant of reachable pool states -/

/-- Invariant of every state reachable in a run started from
`initState nw nt W v0`: the pool geometry is fixed; the producer sends in
order and closes only after all sends; the wait-group counter counts the
workers that have not exited; each mid-fetch worker holds a task that was
sent, and no two workers hold the same task; each task is (depending on
whether it was sent and whether some worker currently holds it) untouched,
request-phased, or fully processed. -/
structure PoolInv {V : Type} (nw nt : Nat) (W : Nat → FetchWorld V)
    (v0 : Nat → V) (s : PoolState V) : Prop where
  numWorkers_eq : s.numWorkers = nw
  numTasks_eq : s.numTasks = nt
  worlds_eq : s.worlds = W
  sent_le : s.sent ≤ nt
  closed_sent : s.closed = true → s.sent = nt
  mainDone_closed : s.mainDone = true → s.closed = true ∧ s.wg = 0
  wg_eq : s.wg = ((Finset.range nw).filter
    (fun i => ¬ s.workers i = WorkerState.exited)).card
  hold_lt_sent : ∀ i tid, i < nw → s.workers i = WorkerState.midFetch tid →
    tid < s.sent
  hold_unique : ∀ i j tid, i < nw → j < nw →
    s.workers i = WorkerState.midFetch tid →
    s.workers j = WorkerState.midFetch tid → i = j
  task_unsent : ∀ tid, s.sent ≤ tid → s.tasks tid = initTask (v0 tid)
  task_held : ∀ tid, tid < s.sent →
    (∃ i, i < nw ∧ s.workers i = WorkerState.midFetch tid) →
    s.tasks tid = requestPhase (W tid) (initTask (v0 tid))
  task_done : ∀ tid, tid < s.sent →
    (∀ i, i < nw → ¬ s.workers i = WorkerState.midFetch tid) →
    s.tasks tid = processTask (W tid) (initTask (v0 tid))

theorem inv_init {V : Type} (nw nt : Nat) (W : Nat → FetchWorld V)
    (v0 : Nat → V) : PoolInv nw nt W v0 (initState nw nt W v0) := by
  refine ⟨rfl, rfl, rfl, Nat.zero_le nt, ?_, ?_, ?_, ?_, ?_, ?_, ?_, ?_⟩
  · intro h
    exact absurd h (by simp [initState])
  · intro h
    exact absurd h (by simp [initState])
  · show nw = ((Finset.range nw).filter
      (fun _ => ¬ WorkerState.waiting = WorkerState.exited)).card
    rw [Finset.filter_true_of_mem (fun i _ => by simp)]
    simp
  · intro i tid _ hwi
    exact absurd hwi (by simp [initState])
  · intro i j tid _ _ hwi _
    exact absurd hwi (by simp [initState])
  · intro tid _
    rfl
  · intro tid htid _
    exact absurd htid (by simp [initState])
  · intro tid htid _
    exact absurd htid (by simp [initState])


theorem inv_step {V : Type} {nw nt : Nat} {W : Nat → FetchWorld V}
    {v0 : Nat → V} {s s' : PoolState V} (inv : PoolInv nw nt W v0 s)
    (h : Step s s') : PoolInv nw nt W v0 s' := by
  cases h with
  | handoff i hi hw hs =>
    have hiw : i < nw := inv.numWorkers_eq ▸ hi
    have hsnt : s.sent < nt := inv.numTasks_eq ▸ hs
    refine ⟨inv.numWorkers_eq, inv.numTasks_eq, inv.worlds_eq, ?_, ?_, ?_,
      ?_, ?_, ?_, ?_, ?_, ?_⟩
    · dsimp only
      omega
    · dsimp only
      intro hc
      have := inv.closed_sent hc
      omega
    · dsimp only
      exact inv.mainDone_closed
    · dsimp only
      rw [inv.wg_eq]
      congr 1
      apply Finset.filter_congr
      intro j hj
      by_cases hji : j = i
      · subst hji
        rw [Function.update_same, hw]
        simp
      · rw [Function.update_noteq hji]
    · intro j tid hj hwj
      dsimp only at hwj ⊢
      by_cases hji : j = i
      · subst hji
        rw [Function.update_same] at hwj
        injection hwj with htid
        omega
      · rw [Function.update_noteq hji] at hwj
        have := inv.hold_lt_sent j tid hj hwj
        omega
    · intro j k tid hj hk hwj hwk
      dsimp only at hwj hwk
      by_cases hji : j = i <;> by_cases hki : k = i
      · subst hji; subst hki; rfl
      · subst hji
        rw [Function.update_same] at hwj
        injection hwj with htid
        rw [Function.update_noteq hki] at hwk
        have := inv.hold_lt_sent k tid hk hwk
        omega
      · subst hki
        rw [Function.update_same] at hwk
        injection hwk with htid
        rw [Function.update_noteq hji] at hwj
        have := inv.hold_lt_sent j tid hj hwj
        omega
      · rw [Function.update_noteq hji] at hwj
        rw [Function.update_noteq hki] at hwk
        exact inv.hold_unique j k tid hj hk hwj hwk
    · intro tid htid
      dsimp only at htid ⊢
      have hne : ¬ tid = s.sent := by omega
      rw [Function.update_noteq hne]
      exact inv.task_unsent tid (by omega)
    · intro tid htid hheld
      dsimp only at htid hheld ⊢
      by_cases htids : tid = s.sent
      · subst htids
        rw [Function.update_same, inv.worlds_eq,
          inv.task_unsent s.sent (Nat.le_refl s.sent)]
      · obtain ⟨j, hj, hwj⟩ := hheld
        have hji : ¬ j = i := by
          intro hji
          subst hji
          rw [Function.update_same] at hwj
          injection hwj with htid2
          exact htids htid2.symm
        rw [Function.update_noteq hji] at hwj
        rw [Function.update_noteq htids]
        exact inv.task_held tid (by omega) ⟨j, hj, hwj⟩
    · intro tid htid hnone
      dsimp only at htid hnone ⊢
      by_cases htids : tid = s.sent
      · subst htids
        have := hnone i hiw
        rw [Function.update_same] at this
        exact absurd rfl this
      · rw [Function.update_noteq htids]
        refine inv.task_done tid (by omega) ?_
        intro j hj
        by_cases hji : j = i
        · subst hji
          rw [hw]
          simp
        · have := hnone j hj
          rw [Function.update_noteq hji] at this
          exact this
  | finish i tid hi hw =>
    have hiw : i < nw := inv.numWorkers_eq ▸ hi
    have htid_lt : tid < s.sent := inv.hold_lt_sent i tid hiw hw
    refine ⟨inv.numWorkers_eq, inv.numTasks_eq, inv.worlds_eq, inv.sent_le,
      inv.closed_sent, inv.mainDone_closed, ?_, ?_, ?_, ?_, ?_, ?_⟩
    · dsimp only
      rw [inv.wg_eq]
      congr 1
      apply Finset.filter_congr
      intro j hj
      by_cases hji : j = i
      · subst hji
        rw [Function.update_same, hw]
        simp
      · rw [Function.update_noteq hji]
    · intro j tid2 hj hwj
      dsimp only at hwj ⊢
      by_cases hji : j = i
      · subst hji
        rw [Function.update_same] at hwj
        exact absurd hwj (by simp)
      · rw [Function.update_noteq hji] at hwj
        exact inv.hold_lt_sent j tid2 hj hwj
    · intro j k tid2 hj hk hwj hwk
      dsimp only at hwj hwk
      by_cases hji : j = i
      · subst hji
        rw [Function.update_same] at hwj
        exact absurd hwj (by simp)
      · by_cases hki : k = i
        · subst hki
          rw [Function.update_same] at hwk
          exact absurd hwk (by simp)
        · rw [Function.update_noteq hji] at hwj
          rw [Function.update_noteq hki] at hwk
          exact inv.hold_unique j k tid2 hj hk hwj hwk
    · intro tid2 htid2
      dsimp only at htid2 ⊢
      have hne : ¬ tid2 = tid := by omega
      rw [Function.update_noteq hne]
      exact inv.task_unsent tid2 htid2
    · intro tid2 htid2 hheld
      dsimp only at htid2 hheld ⊢
      obtain ⟨j, hj, hwj⟩ := hheld
      have hji : ¬ j = i := by
        intro hji
        subst hji
        rw [Function.update_same] at hwj
        exact absurd hwj (by simp)
      rw [Function.update_noteq hji] at hwj
      have hne : ¬ tid2 = tid := by
        intro hne
        subst hne
        exact hji (inv.hold_unique j i tid2 hj hiw hwj hw)
      rw [Function.update_noteq hne]
      exact inv.task_held tid2 htid2 ⟨j, hj, hwj⟩
    · intro tid2 htid2 hnone
      dsimp only at htid2 hnone ⊢
      by_cases hne : tid2 = tid
      · subst hne
        rw [Function.update_same, inv.worlds_eq,
          inv.task_held tid2 htid_lt ⟨i, hiw, hw⟩]
        rfl
      · rw [Function.update_noteq hne]
        refine inv.task_done tid2 htid2 ?_
        intro j hj
        by_cases hji : j = i
        · subst hji
          rw [hw]
          intro heq
          injection heq with h2
          exact hne h2.symm
        · have := hnone j hj
          rw [Function.update_noteq hji] at this
          exact this
  | closeQ hs hc =>
    refine ⟨inv.numWorkers_eq, inv.numTasks_eq, inv.worlds_eq, inv.sent_le,
      ?_, ?_, inv.wg_eq, inv.hold_lt_sent, inv.hold_unique,
      inv.task_unsent, inv.task_held, inv.task_done⟩
    · intro _
      dsimp only
      rw [hs, inv.numTasks_eq]
    · intro hm
      dsimp only at hm
      exact ⟨rfl, (inv.mainDone_closed hm).2⟩
  | wexit i hi hw hc =>
    have hiw : i < nw := inv.numWorkers_eq ▸ hi
    refine ⟨inv.numWorkers_eq, inv.numTasks_eq, inv.worlds_eq, inv.sent_le,
      inv.closed_sent, ?_, ?_, ?_, ?_, inv.task_unsent, ?_, ?_⟩
    · intro hm
      dsimp only at hm ⊢
      have h2 := inv.mainDone_closed hm
      rw [h2.2]
      exact ⟨h2.1, rfl⟩
    · have hmem : i ∈ (Finset.range nw).filter
          (fun j => ¬ s.workers j = WorkerState.exited) := by
        refine Finset.mem_filter.mpr ⟨Finset.mem_range.mpr hiw, ?_⟩
        rw [hw]
        simp
      have hfe : (Finset.range nw).filter
          (fun j => ¬ Function.update s.workers i WorkerState.exited j =
            WorkerState.exited) =
          ((Finset.range nw).filter
            (fun j => ¬ s.workers j = WorkerState.exited)).erase i := by
        ext j
        simp only [Finset.mem_filter, Finset.mem_erase, Finset.mem_range]
        constructor
        · rintro ⟨hjr, hje⟩
          by_cases hji : j = i
          · subst hji
            rw [Function.update_same] at hje
            exact absurd rfl hje
          · rw [Function.update_noteq hji] at hje
            exact ⟨hji, hjr, hje⟩
        · rintro ⟨hji, hjr, hje⟩
          rw [Function.update_noteq hji]
          exact ⟨hjr, hje⟩
      dsimp only
      rw [inv.wg_eq, hfe, Finset.card_erase_of_mem hmem]
    · intro j tid hj hwj
      dsimp only at hwj ⊢
      by_cases hji : j = i
      · subst hji
        rw [Function.update_same] at hwj
        exact absurd hwj (by simp)
      · rw [Function.update_noteq hji] at hwj
        exact inv.hold_lt_sent j tid hj hwj
    · intro j k tid hj hk hwj hwk
      dsimp only at hwj hwk
      by_cases hji : j = i
      · subst hji
        rw [Function.update_same] at hwj
        exact absurd hwj (by simp)
      · by_cases hki : k = i
        · subst hki
          rw [Function.update_same] at hwk
          exact absurd hwk (by simp)
        · rw [Function.update_noteq hji] at hwj
          rw [Function.update_noteq hki] at hwk
          exact inv.hold_unique j k tid hj hk hwj hwk
    · intro tid htid hheld
      dsimp only at htid hheld ⊢
      obtain ⟨j, hj, hwj⟩ := hheld
      have hji : ¬ j = i := by
        intro hji
        subst hji
        rw [Function.update_same] at hwj
        exact absurd hwj (by simp)
      rw [Function.update_noteq hji] at hwj
      exact inv.task_held tid htid ⟨j, hj, hwj⟩
    · intro tid htid hnone
      dsimp only at htid hnone ⊢
      refine inv.task_done tid htid ?_
      intro j hj
      by_cases hji : j = i
      · subst hji
        rw [hw]
        simp
      · have := hnone j hj
        rw [Function.update_noteq hji] at this
        exact this
  | mainFinish hc hwg hm =>
    exact ⟨inv.numWorkers_eq, inv.numTasks_eq, inv.worlds_eq, inv.sent_le,
      inv.closed_sent, fun _ => ⟨hc, hwg⟩, inv.wg_eq, inv.hold_lt_sent,
      inv.hold_unique, inv.task_unsent, inv.task_held, inv.task_done⟩

theorem inv_reachable {V : Type} (nw nt : Nat) (W : Nat → FetchWorld V)
    (v0 : Nat → V) {s : PoolState V}
    (h : Reachable (initState nw nt W v0) s) : PoolInv nw nt W v0 s := by
  induction h with
  | refl => exact inv_init nw nt W v0
  | tail _ hstep ih => exact inv_step ih hstep

/-! ## Consequences of the invariant -/

/-- When the wait-group counter is zero, every worker has exited. -/
theorem wg_zero_all_exited {V : Type} {nw nt : Nat} {W : Nat → FetchWorld V}
    {v0 : Nat → V} {s : PoolState V} (inv : PoolInv nw nt W v0 s)
    (hwg : s.wg = 0) : ∀ i, i < nw → s.workers i = WorkerState.exited := by
  intro i hi
  by_contra hne
  have hmem : i ∈ (Finset.range nw).filter
      (fun j => ¬ s.workers j = WorkerState.exited) :=
    Finset.mem_filter.mpr ⟨Finset.mem_range.mpr hi, hne⟩
  have hpos : 0 < ((Finset.range nw).filter
      (fun j => ¬ s.workers j = WorkerState.exited)).card :=
    Finset.card_pos.mpr ⟨i, hmem⟩
  rw [← inv.wg_eq] at hpos
  omega

/-- Once `wg.Wait` has returned, every task of the batch is in its fully
processed terminal state. -/
theorem drained_tasks_done {V : Type} {nw nt : Nat} {W : Nat → FetchWorld V}
    {v0 : Nat → V} {s : PoolState V} (inv : PoolInv nw nt W v0 s)
    (hm : s.mainDone = true) :
    ∀ tid, tid < nt → s.tasks tid = processTask (W tid) (initTask (v0 tid)) := by
  intro tid htid
  have hcl := inv.mainDone_closed hm
  have hsent : s.sent = nt := inv.closed_sent hcl.1
  refine inv.task_done tid (by omega) ?_
  intro i hi
  rw [wg_zero_all_exited inv hcl.2 i hi]
  simp

/-- Claim C2. Exactly-once completion: (a) one fetch-decode cycle on a dequeued
task calls `Done()` exactly once no matter which of the descriptor, fetch,
body-release or decode steps failed — the cycle runs after the fetch-decode
attempt and, in the step semantics, the worker returns to the queue only
through the step that performs the cycle, so `Done()` precedes taking the next
item; (b) in any reachable state no task has seen `Done()` more than once;
(c) every dequeued task whose cycle has finished has seen `Done()` exactly
once. -/
theorem C2_exactly_once_completion {V : Type} (nw nt : Nat)
    (W : Nat → FetchWorld V) (v0 : Nat → V) :
    (∀ (w : FetchWorld V) (t : TaskState V),
      (processTask w t).doneCount = t.doneCount + 1) ∧
    (∀ s : PoolState V, Reachable (initState nw nt W v0) s →
      ∀ tid : Nat, (s.tasks tid).doneCount ≤ 1) ∧
    (∀ s : PoolState V, Reachable (initState nw nt W v0) s →
      ∀ tid : Nat, tid < s.sent →
      (∀ i, i < nw → ¬ s.workers i = WorkerState.midFetch tid) →
      (s.tasks tid).doneCount = 1) := by
  refine ⟨processTask_doneCount, ?_, ?_⟩
  · intro s h tid
    have inv := inv_reachable nw nt W v0 h
    by_cases hsent : tid < s.sent
    · by_cases hheld : ∃ i, i < nw ∧ s.workers i = WorkerState.midFetch tid
      · rw [inv.task_held tid hsent hheld, requestPhase_doneCount]
        exact Nat.le_succ 0
      · push_neg at hheld
        rw [inv.task_done tid hsent hheld, processTask_doneCount]
        exact Nat.le_refl 1
    · rw [inv.task_unsent tid (by omega)]
      exact Nat.le_succ 0
  · intro s h tid hsent hnone
    have inv := inv_reachable nw nt W v0 h
    rw [inv.task_done tid hsent hnone, processTask_doneCount]
    rfl

/-- Concrete run for the C2 witness: one worker, one task. -/
def c2W : Nat → FetchWorld Nat := fun _ =>
  { reqErr := none, fetchErr := none, decodeRes := Except.ok 5, closeErr := none }

def c2v0 : Nat → Nat := fun _ => 0

def c2s0 : PoolState Nat := initState 1 1 c2W c2v0

def c2s1 : PoolState Nat := { c2s0 with
  workers := Function.update c2s0.workers 0 (WorkerState.midFetch c2s0.sent),
  tasks := Function.update c2s0.tasks c2s0.sent
    (requestPhase (c2s0.worlds c2s0.sent) (c2s0.tasks c2s0.sent)),
  sent := c2s0.sent + 1 }

def c2s2 : PoolState Nat := { c2s1 with
  workers := Function.update c2s1.workers 0 WorkerState.waiting,
  tasks := Function.update c2s1.tasks 0
    (finishPhase (c2s1.worlds 0) (c2s1.tasks 0)) }

theorem C2_exactly_once_completion_witness :
    (processTask (c2W 0) (initTask 0)).doneCount = 0 + 1 ∧
    (c2s2.tasks 0).doneCount ≤ 1 ∧
    (c2s2.tasks 0).doneCount = 1 := by
  have h1 : Step c2s0 c2s1 :=
    Step.handoff c2s0 0 (by decide) rfl (by decide)
  have h2 : Step c2s1 c2s2 :=
    Step.finish c2s1 0 0 (by decide) rfl
  have hreach : Reachable (initState 1 1 c2W c2v0) c2s2 :=
    Relation.ReflTransGen.head h1 (Relation.ReflTransGen.single h2)
  have h := C2_exactly_once_completion 1 1 c2W c2v0
  refine ⟨h.1 (c2W 0) (initTask 0), h.2.1 c2s2 hreach 0, ?_⟩
  refine h.2.2 c2s2 hreach 0 (by decide) ?_
  intro i hi
  have hi0 : i = 0 := Nat.lt_one_iff.mp hi
  subst hi0
  decide

/-- Claim C3. Drain guarantee: in any run, once `Stop()` has returned
(`mainDone`), the queue is closed, every worker has exited and signaled the
barrier, and every task enqueued before the close is in its terminal
processed state — its final error/decode state equals the deterministic
per-task result and `Done()` has been invoked on it exactly once; in the
model the terminal state is plain data the caller reads directly, which is
the visibility the `WaitGroup` fence provides. -/
theorem C3_drain_guarantee {V : Type} (nw nt : Nat) (W : Nat → FetchWorld V)
    (v0 : Nat → V) (s : PoolState V)
    (h : Reachable (initState nw nt W v0) s) (hm : s.mainDone = true) :
    s.closed = true ∧
    (∀ i, i < nw → s.workers i = WorkerState.exited) ∧
    (∀ tid, tid < nt → s.tasks tid = processTask (W tid) (initTask (v0 tid))) ∧
    (∀ tid, tid < nt → (s.tasks tid).doneCount = 1) := by
  have inv := inv_reachable nw nt W v0 h
  have hcl := inv.mainDone_closed hm
  refine ⟨hcl.1, wg_zero_all_exited inv hcl.2, drained_tasks_done inv hm, ?_⟩
  intro tid htid
  rw [drained_tasks_done inv hm tid htid, processTask_doneCount]
  rfl

/-- Concrete run for the C3 witness: one worker, one task whose body release
fails. -/
def c3W : Nat → FetchWorld Nat := fun _ =>
  { reqErr := none, fetchErr := none, decodeRes := Except.ok 42,
    closeErr := some (GoError.base "close failed") }

def c3v0 : Nat → Nat := fun _ => 0

def c3s0 : PoolState Nat := initState 1 1 c3W c3v0

def c3s1 : PoolState Nat := { c3s0 with
  workers := Function.update c3s0.workers 0 (WorkerState.midFetch c3s0.sent),
  tasks := Function.update c3s0.tasks c3s0.sent
    (requestPhase (c3s0.worlds c3s0.sent) (c3s0.tasks c3s0.sent)),
  sent := c3s0.sent + 1 }

def c3s2 : PoolState Nat := { c3s1 with
  workers := Function.update c3s1.workers 0 WorkerState.waiting,
  tasks := Function.update c3s1.tasks 0
    (finishPhase (c3s1.worlds 0) (c3s1.tasks 0)) }

def c3s3 : PoolState Nat := { c3s2 with closed := true }

def c3s4 : PoolState Nat := { c3s3 with
  workers := Function.update c3s3.workers 0 WorkerState.exited,
  wg := c3s3.wg - 1 }

def c3s5 : PoolState Nat := { c3s4 with mainDone := true }

theorem C3_drain_guarantee_witness :
    c3s5.mainDone = true ∧ c3s5.closed = true ∧
    c3s5.workers 0 = WorkerState.exited ∧
    (c3s5.tasks 0).doneCount = 1 := by
  have h1 : Step c3s0 c3s1 :=
    Step.handoff c3s0 0 (by decide) rfl (by decide)
  have h2 : Step c3s1 c3s2 :=
    Step.finish c3s1 0 0 (by decide) rfl
  have h3 : Step c3s2 c3s3 :=
    Step.closeQ c3s2 rfl rfl
  have h4 : Step c3s3 c3s4 :=
    Step.wexit c3s3 0 (by decide) rfl rfl
  have h5 : Step c3s4 c3s5 :=
    Step.mainFinish c3s4 rfl rfl rfl
  have hreach : Reachable (initState 1 1 c3W c3v0) c3s5 :=
    Relation.ReflTransGen.head h1 (Relation.ReflTransGen.head h2
      (Relation.ReflTransGen.head h3 (Relation.ReflTransGen.head h4
        (Relation.ReflTransGen.single h5))))
  have h := C3_drain_guarantee 1 1 c3W c3v0 c3s5 hreach rfl
  exact ⟨rfl, h.1, h.2.1 0 (by decide), h.2.2.2 0 (by decide)⟩

/-- Claim C4. Transport failure short-circuits: when the fetch of a task fails
with `f`, the worker records the wrapped transport error on that task and
stops processing it — the decode target is not written and the decoder oracle
is never consulted — and the worker itself is unaffected: from any pool state
in which some worker is mid-fetch on some task, that worker can complete the
cycle, return to the queue for the next item, and leave every other task's
state untouched. -/
theorem C4_transport_failure_short_circuits {V : Type} (w : FetchWorld V)
    (t : TaskState V) (f : GoError) (hf : w.fetchErr = some f) :
    (processTask w t).err =
      some (GoError.wrapped "HTTP: Error performing request" f) ∧
    (processTask w t).data = t.data ∧
    (∀ d d2 : Except GoError V,
      processTask { w with decodeRes := d } t =
        processTask { w with decodeRes := d2 } t) ∧
    (∀ (s : PoolState V) (i tid : Nat), i < s.numWorkers →
      s.workers i = WorkerState.midFetch tid →
      ∃ s2 : PoolState V, Step s s2 ∧
        s2.workers i = WorkerState.waiting ∧ s2.sent = s.sent ∧
        ∀ tid2, ¬ tid2 = tid → s2.tasks tid2 = s.tasks tid2) := by
  refine ⟨processTask_err_of_fetchErr w t f hf,
    processTask_data_of_fetchErr w t f hf,
    processTask_decode_irrelevant_of_fetchErr w t f hf, ?_⟩
  intro s i tid hi hw
  refine ⟨_, Step.finish s i tid hi hw, ?_, rfl, ?_⟩
  · dsimp only
    rw [Function.update_same]
  · intro tid2 hne
    dsimp only
    rw [Function.update_noteq hne]

/-- Concrete world for the C4 witness: the fetch fails. -/
def c4World : FetchWorld Nat :=
  { reqErr := none, fetchErr := some (GoError.base "connection refused"),
    decodeRes := Except.ok 3, closeErr := none }

theorem C4_transport_failure_short_circuits_witness :
    c4World.fetchErr = some (GoError.base "connection refused") ∧
    (processTask c4World (initTask 9)).err =
      some (GoError.wrapped "HTTP: Error performing request"
        (GoError.base "connection refused")) ∧
    (processTask c4World (initTask 9)).data = 9 := by
  have h := C4_transport_failure_short_circuits c4World (initTask 9)
    (GoError.base "connection refused") rfl
  exact ⟨rfl, h.1, h.2.1⟩

/-- Concrete run for the C7 counterexample and witness. -/
def c7World : Nat → FetchWorld Nat := fun _ =>
  { reqErr := none, fetchErr := none, decodeRes := Except.ok 0,
    closeErr := none }

def c7v0 : Nat → Nat := fun _ => 0

def c7s0 : PoolState Nat := doNInit 0 1 c7World c7v0

def c7s1 : PoolState Nat := { c7s0 with
  workers := Function.update c7s0.workers 0 (WorkerState.midFetch c7s0.sent),
  tasks := Function.update c7s0.tasks c7s0.sent
    (requestPhase (c7s0.worlds c7s0.sent) (c7s0.tasks c7s0.sent)),
  sent := c7s0.sent + 1 }

/-- Claim C7, counterexample. For `DoN(0, one task)` — which satisfies
`len(tasks) > n` — the clamp makes the pool have one worker, and the run
reaches a state with one task mid-fetch, which is more than `n = 0`: the
claimed bound `n` is violated at `n = 0`. -/
theorem C7_counterexample :
    Reachable (doNInit 0 1 c7World c7v0) c7s1 ∧ midFetchCount c7s1 = 1 := by
  constructor
  · exact Relation.ReflTransGen.single
      (Step.handoff c7s0 0 (by decide) rfl (by decide))
  · decide

/-- Claim C7, amended. Bounded concurrency: for every run of `DoN(n, tasks)`
with `len(tasks) > n`, at no point during execution are more than
`max(n, 1)` tasks concurrently mid-fetch — the pool is clamped to
`max(n, 1)` workers and each worker holds at most one task at a time, the
zero-buffer hand-off queue blocking each enqueue until a worker is ready. -/
theorem C7_bounded_concurrency_max {V : Type} (n nt : Nat)
    (W : Nat → FetchWorld V) (v0 : Nat → V) (hlen : n < nt)
    (s : PoolState V) (h : Reachable (doNInit n nt W v0) s) :
    midFetchCount s ≤ max n 1 := by
  have inv := inv_reachable (doNClamp n) nt W v0 h
  have h1 : midFetchCount s ≤ s.numWorkers := by
    have h2 := Finset.card_filter_le (Finset.range s.numWorkers)
      (fun i => isMidFetch (s.workers i) = true)
    rw [Finset.card_range] at h2
    exact h2
  rw [inv.numWorkers_eq, doNClamp_eq_max] at h1
  exact h1

theorem C7_bounded_concurrency_max_witness :
    0 < 2 ∧ midFetchCount (doNInit 0 2 c7World c7v0) ≤ max 0 1 :=
  ⟨by decide, C7_bounded_concurrency_max 0 2 c7World c7v0 (by decide) _
    Relation.ReflTransGen.refl⟩

/-- Claim C8. `DoN` pool sizing: for every `n` and every task batch,
`DoN(n, tasks...)` creates a pool of fixed size `max(n, 1)` — the code's
clamp `if n < 1 { n = 1 }` — with the wait-group counter matching; and in any
run, by the time `DoN` returns (`wg.Wait` returned) the queue has been closed
and all `len(tasks)` tasks were enqueued before the close. -/
theorem C8_doN_pool_sizing {V : Type} (n nt : Nat) (W : Nat → FetchWorld V)
    (v0 : Nat → V) :
    (doNInit n nt W v0).numWorkers = max n 1 ∧
    (doNInit n nt W v0).wg = max n 1 ∧
    (∀ s : PoolState V, Reachable (doNInit n nt W v0) s → s.mainDone = true →
      s.closed = true ∧ s.sent = nt) := by
  refine ⟨doNClamp_eq_max n, doNClamp_eq_max n, ?_⟩
  intro s h hm
  have inv := inv_reachable (doNClamp n) nt W v0 h
  have hcl := inv.mainDone_closed hm
  exact ⟨hcl.1, inv.closed_sent hcl.1⟩

/-- Concrete run for the C8 witness: `DoN(1)` with an empty batch, run to
completion. -/
def c8W : Nat → FetchWorld Nat := fun _ =>
  { reqErr := none, fetchErr := none, decodeRes := Except.ok 0,
    closeErr := none }

def c8v0 : Nat → Nat := fun _ => 0

def c8s0 : PoolState Nat := doNInit 1 0 c8W c8v0

def c8s1 : PoolState Nat := { c8s0 with closed := true }

def c8s2 : PoolState Nat := { c8s1 with
  workers := Function.update c8s1.workers 0 WorkerState.exited,
  wg := c8s1.wg - 1 }

def c8s3 : PoolState Nat := { c8s2 with mainDone := true }

theorem C8_doN_pool_sizing_witness :
    (doNInit 1 0 c8W c8v0).numWorkers = max 1 1 ∧
    c8s3.mainDone = true ∧ c8s3.closed = true ∧ c8s3.sent = 0 := by
  have h1 : Step c8s0 c8s1 := Step.closeQ c8s0 rfl rfl
  have h2 : Step c8s1 c8s2 := Step.wexit c8s1 0 (by decide) rfl rfl
  have h3 : Step c8s2 c8s3 := Step.mainFinish c8s2 rfl rfl rfl
  have hreach : Reachable (doNInit 1 0 c8W c8v0) c8s3 :=
    Relation.ReflTransGen.head h1
      (Relation.ReflTransGen.head h2 (Relation.ReflTransGen.single h3))
  have h := C8_doN_pool_sizing 1 0 c8W c8v0
  exact ⟨h.1, rfl, (h.2.2 c8s3 hreach rfl).1, (h.2.2 c8s3 hreach rfl).2⟩

/-- Claim C9. Full parallelism: the top-level `Do(tasks...)` creates a pool
with exactly `len(tasks)` workers; in any run, by the time `Do` returns
(`wg.Wait` returned) all tasks were enqueued, the queue was closed, and every
task has been completed (`Done()` invoked on it). -/
theorem C9_full_parallelism {V : Type} (nt : Nat) (W : Nat → FetchWorld V)
    (v0 : Nat → V) :
    (doInit nt W v0).numWorkers = nt ∧
    (∀ s : PoolState V, Reachable (doInit nt W v0) s → s.mainDone = true →
      s.sent = nt ∧ s.closed = true ∧
      ∀ tid, tid < nt → (s.tasks tid).doneCount = 1) := by
  refine ⟨rfl, ?_⟩
  intro s h hm
  have inv := inv_reachable nt nt W v0 h
  have hcl := inv.mainDone_closed hm
  refine ⟨inv.closed_sent hcl.1, hcl.1, ?_⟩
  intro tid htid
  rw [drained_tasks_done inv hm tid htid, processTask_doneCount]
  rfl

/-- Concrete run for the C9 witness: one task whose decode fails, run to
completion. -/
def c9W : Nat → FetchWorld Nat := fun _ =>
  { reqErr := none, fetchErr := none,
    decodeRes := Except.error (GoError.base "unexpected EOF"),
    closeErr := none }

def c9v0 : Nat → Nat := fun _ => 0

def c9s0 : PoolState Nat := doInit 1 c9W c9v0

def c9s1 : PoolState Nat := { c9s0 with
  workers := Function.update c9s0.workers 0 (WorkerState.midFetch c9s0.sent),
  tasks := Function.update c9s0.tasks c9s0.sent
    (requestPhase (c9s0.worlds c9s0.sent) (c9s0.tasks c9s0.sent)),
  sent := c9s0.sent + 1 }

def c9s2 : PoolState Nat := { c9s1 with
  workers := Function.update c9s1.workers 0 WorkerState.waiting,
  tasks := Function.update c9s1.tasks 0
    (finishPhase (c9s1.worlds 0) (c9s1.tasks 0)) }

def c9s3 : PoolState Nat := { c9s2 with closed := true }

def c9s4 : PoolState Nat := { c9s3 with
  workers := Function.update c9s3.workers 0 WorkerState.exited,
  wg := c9s3.wg - 1 }

def c9s5 : PoolState Nat := { c9s4 with mainDone := true }

theorem C9_full_parallelism_witness :
    (doInit 1 c9W c9v0).numWorkers = 1 ∧
    c9s5.mainDone = true ∧ c9s5.sent = 1 ∧ c9s5.closed = true ∧
    (c9s5.tasks 0).doneCount = 1 := by
  have h1 : Step c9s0 c9s1 :=
    Step.handoff c9s0 0 (by decide) rfl (by decide)
  have h2 : Step c9s1 c9s2 :=
    Step.finish c9s1 0 0 (by decide) rfl
  have h3 : Step c9s2 c9s3 := Step.closeQ c9s2 rfl rfl
  have h4 : Step c9s3 c9s4 := Step.wexit c9s3 0 (by decide) rfl rfl
  have h5 : Step c9s4 c9s5 := Step.mainFinish c9s4 rfl rfl rfl
  have hreach : Reachable (doInit 1 c9W c9v0) c9s5 :=
    Relation.ReflTransGen.head h1 (Relation.ReflTransGen.head h2
      (Relation.ReflTransGen.head h3 (Relation.ReflTransGen.head h4
        (Relation.ReflTransGen.single h5))))
  have h := C9_full_parallelism 1 c9W c9v0
  have h2b := h.2 c9s5 hreach rfl
  exact ⟨h.1, rfl, h2b.1, h2b.2.1, h2b.2.2 0 (by decide)⟩

/-- Concrete oracle for the C10 run (never consulted: there are no tasks). -/
def c10W : Nat → FetchWorld Nat := fun _ =>
  { reqErr := none, fetchErr := none, decodeRes := Except.ok 0,
    closeErr := none }

def c10v0 : Nat → Nat := fun _ => 0

def c10s1 : PoolState Nat := { doInit 0 c10W c10v0 with closed := true }

def c10s2 : PoolState Nat := { c10s1 with mainDone := true }

/-- Claim C10. Empty-batch edge case: calling the top-level `Do` with zero
tasks creates a pool with zero workers and a wait-group counter of zero;
nothing is enqueued, the producer immediately closes the queue, the barrier
(counting zero workers) is already satisfied, and `wg.Wait` returns — the run
reaches the returned state without any worker step and without blocking. -/
theorem C10_empty_batch :
    (doInit 0 c10W c10v0).numWorkers = 0 ∧
    (doInit 0 c10W c10v0).wg = 0 ∧
    (doInit 0 c10W c10v0).sent = 0 ∧
    Reachable (doInit 0 c10W c10v0) c10s2 ∧
    c10s2.mainDone = true ∧ c10s2.sent = 0 := by
  refine ⟨rfl, rfl, rfl, ?_, rfl, rfl⟩
  have h1 : Step (doInit 0 c10W c10v0) c10s1 :=
    Step.closeQ (doInit 0 c10W c10v0) rfl rfl
  have h2 : Step c10s1 c10s2 := Step.mainFinish c10s1 rfl rfl rfl
  exact Relation.ReflTransGen.head h1 (Relation.ReflTransGen.single h2)
